import Mathlib

/-
Verification of the MCP discovery tool (src/tools/mcp_discovery.py) of the
Strider-Python repository, as a shallow embedding in Lean 4.

Modelling conventions:
* Python strings become Lean `String`; Python `pat in s` becomes `pyIn pat s`
  (substring test on the character lists); `str.lower` / `str.upper` become
  the character-wise `pyLower` / `pyUpper` (the discovery tool only ever
  compares ASCII patterns).
* Python floats become rationals (`ℚ`).  All risk deltas are small decimal
  constants, and both the code and the properties under check combine them
  with the same additions, so the exact-arithmetic model is faithful.
* Parsed JSON documents become the inductive `JVal`; `dict.get` and key
  membership become `jLookup` / `pyInDoc`.  JSON objects are assumed to have
  unique keys (what `json.load` produces for ordinary documents).
* External I/O (file existence, `os.path.isfile`, resolving a path to its
  canonical form, reading+JSON-decoding a file, the recursive `rglob` walk)
  is abstracted as an explicit environment `FS`; `FS.read p = none` covers
  both an unreadable file and one that is not valid JSON, since the tool
  treats both as "zero records, keep going".
* A Python exception raised while translating one server entry is modelled by
  `Option`: extraction functions return `none` exactly where the Python code
  would raise (`.startswith` on a non-string command, iterating a
  number-valued `args`, `.keys()` on a non-dict `env`, `in` against a
  number).  Inside `_parse_claude_desktop_config` such an exception aborts
  the remaining entries of that file (the surrounding `try` is per file),
  while inside `_create_server_from_config` it is caught per entry; both
  behaviours are reproduced.  Values Python keeps without raising are
  carried through their observable form: a `url` field value through
  `urlFieldVal` (its truthiness and its `str()` export form), a string- or
  dict-valued `args` as the character/key list Python iterates it as, and a
  non-string env value as its `str()` form, since record construction and
  the risk model read only the env keys.
-/

/-- Substring test on character lists: does `hay` contain `pat` as a
contiguous run?  `containsSub hay [] = true`, like Python's `"" in s`. -/
def containsSub : List Char → List Char → Bool
  | hay, pat =>
    match hay with
    | [] => pat.isEmpty
    | _ :: t => List.isPrefixOf pat hay || containsSub t pat

/-- Python's `pat in s` on strings. -/
def pyIn (pat s : String) : Bool :=
  containsSub s.toList pat.toList

/-- Python's `s.lower()` (character-wise; the tool only compares ASCII). -/
def pyLower (s : String) : String :=
  ⟨s.data.map Char.toLower⟩

/-- Python's `s.upper()` (character-wise; the tool only compares ASCII). -/
def pyUpper (s : String) : String :=
  ⟨s.data.map Char.toUpper⟩

/-- Python's `s.startswith(p)` for one prefix. -/
def pyStartsWith (s p : String) : Bool :=
  List.isPrefixOf p.data s.data

/-- Python's `s[:n]`: the first `n` characters. -/
def pyTake (s : String) (n : Nat) : String :=
  ⟨s.data.take n⟩

/-- Python's `len(s)` in characters. -/
def pyLen (s : String) : Nat :=
  s.data.length

/-- Parsed JSON values, the result type of `json.load`. -/
inductive JVal where
  | null
  | bool (b : Bool)
  | num (n : Int)
  | str (s : String)
  | arr (xs : List JVal)
  | obj (kvs : List (String × JVal))

/-- Key lookup in a JSON object (Python `d[k]` / `k in d` on a dict with
unique keys). -/
def jLookup : List (String × JVal) → String → Option JVal
  | [], _ => none
  | (k, v) :: rest, key => if k == key then some v else jLookup rest key

/-- Python `d.get(k, default)`. -/
def jGetD (kvs : List (String × JVal)) (k : String) (d : JVal) : JVal :=
  (jLookup kvs k).getD d

/-- Python truthiness of a parsed JSON value. -/
def jTruthy : JVal → Bool
  | .null => false
  | .bool b => b
  | .num n => n != 0
  | .str s => !s.isEmpty
  | .arr xs => !xs.isEmpty
  | .obj kvs => !kvs.isEmpty

/-- Single-quote character, used by Python's `str()` on dicts. -/
def pyQuote : String := String.singleton (Char.ofNat 39)

/-- Opening brace character. -/
def pyLBrace : String := String.singleton (Char.ofNat 123)

/-- Closing brace character. -/
def pyRBrace : String := String.singleton (Char.ofNat 125)

mutual

/-- Python's `str()` of a parsed JSON value (used by the Continue.dev
adapter in `"mcp" in str(model).lower()`); plain strings only, without
Python's escaping or quote switching, which the discovery tool never
relies on. -/
def pyRepr : JVal → String
  | .null => "None"
  | .bool true => "True"
  | .bool false => "False"
  | .num n => toString n
  | .str s => pyQuote ++ s ++ pyQuote
  | .arr xs => "[" ++ pyReprList xs ++ "]"
  | .obj kvs => pyLBrace ++ pyReprObj kvs ++ pyRBrace

/-- Comma-joined rendering of a list's elements. -/
def pyReprList : List JVal → String
  | [] => ""
  | [x] => pyRepr x
  | x :: y :: xs => pyRepr x ++ ", " ++ pyReprList (y :: xs)

/-- Comma-joined rendering of a dict's items. -/
def pyReprObj : List (String × JVal) → String
  | [] => ""
  | [(k, v)] => pyQuote ++ k ++ pyQuote ++ ": " ++ pyRepr v
  | (k, v) :: e :: xs =>
    pyQuote ++ k ++ pyQuote ++ ": " ++ pyRepr v ++ ", " ++ pyReprObj (e :: xs)

end

/-- The stored `url` attribute for a JSON `url` field value: Python stores
the raw value; a string is stored as itself, and any other value is kept
only through its observable behaviour — `if self.url:` truthiness and the
`self.url or ""` form at export — so a falsy value (JSON null, `false`,
`0`, an empty array or object) behaves exactly like the absent url and a
truthy non-string is carried as its `str()` form.  No raising case: the
URL branch of record construction never raises in Python. -/
def urlFieldVal : JVal → Option String
  | .str s => some s
  | v => if jTruthy v then some (pyRepr v) else none

/-- Extraction of a string field with a default: `d.get(k, dflt)` where the
consumer needs a `str`.  A present non-string value is the raising case. -/
def jGetStrD (kvs : List (String × JVal)) (k : String) (dflt : String) :
    Option String :=
  match jLookup kvs k with
  | none => some dflt
  | some (.str s) => some s
  | some _ => none

/-- All-strings view of a JSON array (the `args` list). -/
def jStrList : List JVal → Option (List String)
  | [] => some []
  | .str s :: rest => (jStrList rest).map (fun l => s :: l)
  | _ :: _ => none

/-- Python `d.get(k, [])` for the `args` field.  The record only ever
iterates `args` (the substring scan at line 62 and the space-join at
line 127), so a string-valued field — which Python iterates as its
characters — is carried as its character list, and a dict-valued field as
its key list; a number/bool/null raises on iteration, as does an array
holding a non-string (at the substring scan), giving the raising case. -/
def jGetArgsD (kvs : List (String × JVal)) (k : String) :
    Option (List String) :=
  match jLookup kvs k with
  | none => some []
  | some (.arr xs) => jStrList xs
  | some (.str s) => some (s.data.map (fun c => String.singleton c))
  | some (.obj pairs) => some (pairs.map (fun kv => kv.1))
  | some _ => none

/-- View of a JSON env object as string pairs.  Record construction and
the risk model read only the keys (lines 56-57 / 88-89), so this never
raises: a non-string value is carried as its `str()` form, a boundary
choice no modelled consumer observes (Python would itself raise on such a
value at export-time masking of a sensitive key). -/
def envPairs (pairs : List (String × JVal)) : List (String × String) :=
  pairs.map (fun kv =>
    (kv.1, match kv.2 with | .str s => s | v => pyRepr v))

/-- Python `d.get(k, dict())` for the `env` field; a non-dict value raises
at `.keys()`. -/
def jGetEnvD (kvs : List (String × JVal)) (k : String) :
    Option (List (String × String)) :=
  match jLookup kvs k with
  | none => some []
  | some (.obj pairs) => some (envPairs pairs)
  | some _ => none

/-- Normalized server record: the explicit fields of `MCPServerInfo.__init__`
(`discovered_at` is a wall-clock timestamp and is left out of the model; the
derived `risk_score` / `risk_factors` are the functions below, which depend
only on these fields and so agree with the values stored at construction). -/
structure MCPServerInfo where
  name : String
  command : String
  args : List String
  envVars : List (String × String)
  configPath : String
  url : Option String
deriving Repr, DecidableEq

/-- Python `command.startswith(("npx", "uvx", "uv"))` (line 50/83). -/
def startsRunner (c : String) : Bool :=
  pyStartsWith c "npx" || pyStartsWith c "uvx" || pyStartsWith c "uv"

/-- Condition of the custom-binary rule (lines 50-52 / 83-85): command does
not start with a package-runner and names an existing regular file.
`isFile` is the external `os.path.isfile`. -/
def customBinCond (isFile : String → Bool) (r : MCPServerInfo) : Bool :=
  !startsRunner r.command && isFile r.command

/-- Sensitive-pattern list of `_calculate_risk_score` and
`_identify_risk_factors` (lines 55 / 87). -/
def sensitivePatterns : List String :=
  ["TOKEN", "KEY", "SECRET", "PASSWORD", "CREDENTIAL"]

/-- Condition of the sensitive-env rule (lines 56-59 / 88-91): some env key
whose upper-cased form contains one of the patterns. -/
def sensEnvCond (env : List (String × String)) : Bool :=
  env.any (fun kv => sensitivePatterns.any (fun p => pyIn p (pyUpper kv.1)))

/-- Filesystem condition of the score pass (line 62): name (lower-cased)
contains "filesystem", or some raw arg contains "filesystem". -/
def fsScoreCond (r : MCPServerInfo) : Bool :=
  pyIn "filesystem" (pyLower r.name) || r.args.any (fun a => pyIn "filesystem" a)

/-- Filesystem condition of the factor pass (line 93): name only. -/
def fsFactorCond (r : MCPServerInfo) : Bool :=
  pyIn "filesystem" (pyLower r.name)

/-- Database condition (lines 66 / 96). -/
def dbCond (r : MCPServerInfo) : Bool :=
  ["postgres", "mysql", "redis", "mongo"].any (fun d => pyIn d (pyLower r.name))

/-- Python truthiness of the stored `url` field (`if self.url:`). -/
def urlTruthy : Option String → Bool
  | none => false
  | some s => !(s == "")

/-- Interpreted-runtime condition (line 74). -/
def runnerCond (c : String) : Bool :=
  ["python", "node", "run"].any (fun p => pyIn p c)

/-- Code-repository condition (line 102). -/
def githubCond (r : MCPServerInfo) : Bool :=
  pyIn "github" (pyLower r.name)

/-- Automation condition (line 105). -/
def autoCond (r : MCPServerInfo) : Bool :=
  ["playwright", "mobile"].any (fun t => pyIn t (pyLower r.name))

/-- Translation of `MCPServerInfo._calculate_risk_score` (lines 45-77):
sequential accumulation of the deltas, clamped by `min(score, 1.0)`. -/
def calculateRiskScore (isFile : String → Bool) (r : MCPServerInfo) : ℚ :=
  let s0 : ℚ := 0
  let s1 := if customBinCond isFile r then s0 + 3/10 else s0
  let s2 := if sensEnvCond r.envVars then s1 + 1/4 else s1
  let s3 := if fsScoreCond r then s2 + 1/5 else s2
  let s4 := if dbCond r then s3 + 3/20 else s3
  let s5 := if urlTruthy r.url then s4 + 1/10 else s4
  let s6 := if runnerCond r.command then s5 + 1/20 else s5
  min s6 1

/-- Translation of `MCPServerInfo._identify_risk_factors` (lines 79-108):
the guarded appends, in source order. -/
def identifyRiskFactors (isFile : String → Bool) (r : MCPServerInfo) :
    List String :=
  (if customBinCond isFile r then ["CUSTOM_BINARY"] else []) ++
  (if sensEnvCond r.envVars then ["SENSITIVE_ENV_VARS"] else []) ++
  (if fsFactorCond r then ["FILE_SYSTEM_ACCESS"] else []) ++
  (if dbCond r then ["DATABASE_ACCESS"] else []) ++
  (if urlTruthy r.url then ["EXTERNAL_URL"] else []) ++
  (if githubCond r then ["CODE_REPOSITORY_ACCESS"] else []) ++
  (if autoCond r then ["AUTOMATION_CAPABILITY"] else [])

/-- Rule-table form of the score from the property under check: the sum of
the deltas of the matched rules (one indicator per row of the table). -/
def ruleDeltaSum (isFile : String → Bool) (r : MCPServerInfo) : ℚ :=
  (if customBinCond isFile r then (3 : ℚ)/10 else 0) +
  (if sensEnvCond r.envVars then (1 : ℚ)/4 else 0) +
  (if fsScoreCond r then (1 : ℚ)/5 else 0) +
  (if dbCond r then (3 : ℚ)/20 else 0) +
  (if urlTruthy r.url then (1 : ℚ)/10 else 0) +
  (if runnerCond r.command then (1 : ℚ)/20 else 0)

/-- Masking of one environment value in `MCPServerInfo.to_dict`
(lines 113-118).  Note the pattern list there is the four-element one. -/
def maskValue (key value : String) : String :=
  if ["TOKEN", "KEY", "SECRET", "PASSWORD"].any (fun p => pyIn p (pyUpper key))
  then (if 10 < pyLen value then pyTake value 10 ++ "..." else "***")
  else value

/-- The masked `env_vars` mapping of the exported row. -/
def maskedEnv (env : List (String × String)) : List (String × String) :=
  env.map (fun kv => (kv.1, maskValue kv.1 kv.2))

/-- External-I/O environment of one discovery run: existence probe,
canonicalization (`Path.resolve`), reading-and-JSON-decoding a file
(`none` = unreadable or not valid JSON), `os.path.isfile`, and the
`rglob("*.json")` walk under a directory. -/
structure FS where
  pathPresent : String → Bool
  resolve : String → String
  read : String → Option JVal
  isFile : String → Bool
  filesUnder : String → List String

/-- Translation of one entry of the `mcpServers` loop of
`_parse_claude_desktop_config` (lines 408-426): URL branch whenever the
entry has a `url` key (key membership — the value may be anything,
including JSON null, and is stored via `urlFieldVal`), command branch
otherwise.  `none` is the raising case of the command branch. -/
def claudeEntryRec (nm : String) (fields : List (String × JVal))
    (path : String) : Option MCPServerInfo :=
  match jLookup fields "url" with
  | some v => some ⟨nm, "", [], [], path, urlFieldVal v⟩
  | none =>
    match jGetStrD fields "command" "", jGetArgsD fields "args",
        jGetEnvD fields "env" with
    | some c, some a, some e => some ⟨nm, c, a, e, path, none⟩
    | _, _, _ => none

/-- The `mcpServers` loop of `_parse_claude_desktop_config`: entries in
order; an exception while translating one entry ends the loop (the `try`
of that function wraps the whole loop), keeping the records already made. -/
def claudeRecords (path : String) :
    List (String × JVal) → List MCPServerInfo
  | [] => []
  | (nm, sc) :: rest =>
    match sc with
    | .obj fields =>
      match claudeEntryRec nm fields path with
      | some r => r :: claudeRecords path rest
      | none => []
    | _ => []

/-- Translation of `_parse_claude_desktop_config` (lines 394-434): ledger
check/insert on the resolved path before reading, then the entry loop.
Returns the records and the updated ledger. -/
def parseClaudeDesktopConfig (fs : FS) (path : String)
    (st : List String) : List MCPServerInfo × List String :=
  let key := fs.resolve path
  if key ∈ st then ([], st)
  else
    let st1 := key :: st
    match fs.read path with
    | none => ([], st1)
    | some cfg =>
      match cfg with
      | .obj kvs =>
        match jLookup kvs "mcpServers" with
        | some (.obj servers) => (claudeRecords path servers, st1)
        | some _ => ([], st1)
        | none => ([], st1)
      | _ => ([], st1)

/-- Python's `k in cfg` on a parsed JSON document: key membership for a
dict, element equality for a list, substring test for a string; `none` is
the raising case (`in` against a number, bool or null raises). -/
def pyInDoc (k : String) : JVal → Option Bool
  | .obj kvs => some (jLookup kvs k).isSome
  | .arr xs =>
    some (xs.any (fun v => match v with | .str s => s == k | _ => false))
  | .str s => some (pyIn k s)
  | _ => none

/-- Translation of `_parse_generic_mcp_config` (lines 503-512): read the
file and, whenever Python's `"mcpServers" in config` membership test
succeeds — which a string or array document can also satisfy — delegate
to `_parse_claude_desktop_config`, which re-reads the file and owns the
ledger interaction (inserting the resolved path before failing with zero
records on a non-dict document).  No ledger check of its own; a raising
membership test is caught with zero records and no ledger touch. -/
def parseGenericMcpConfig (fs : FS) (path : String)
    (st : List String) : List MCPServerInfo × List String :=
  match fs.read path with
  | none => ([], st)
  | some cfg =>
    match pyInDoc "mcpServers" cfg with
    | some true => parseClaudeDesktopConfig fs path st
    | _ => ([], st)

/-- Per-file loop of `_scan_directory_for_configs` (lines 514-520). -/
def scanGo (fs : FS) : List String → List String →
    List MCPServerInfo × List String
  | [], st => ([], st)
  | p :: ps, st =>
    let pr := parseGenericMcpConfig fs p st
    let rest := scanGo fs ps pr.2
    (pr.1 ++ rest.1, rest.2)

/-- Translation of `_scan_directory_for_configs`: apply
`_parse_generic_mcp_config` to every JSON file under the directory, in
walk order. -/
def scanDirectoryForConfigs (fs : FS) (dir : String)
    (st : List String) : List MCPServerInfo × List String :=
  scanGo fs (fs.filesUnder dir) st

/-- Python `d.get(k1, d.get(k2, ""))` needing a `str` (the flexible field
aliases of `_create_server_from_config`). -/
def jGetStr2D (kvs : List (String × JVal)) (k1 k2 : String) :
    Option String :=
  match jLookup kvs k1 with
  | some (.str s) => some s
  | some _ => none
  | none =>
    match jLookup kvs k2 with
    | some (.str s) => some s
    | some _ => none
    | none => some ""

/-- One-field form of the args extraction, shared by both aliases. -/
def argsVal : JVal → Option (List String)
  | .arr xs => jStrList xs
  | .str s => some (s.data.map (fun c => String.singleton c))
  | .obj pairs => some (pairs.map (fun kv => kv.1))
  | _ => none

/-- Two-alias variant of the args extraction. -/
def jGetArgs2D (kvs : List (String × JVal)) (k1 k2 : String) :
    Option (List String) :=
  match jLookup kvs k1 with
  | some v => argsVal v
  | none =>
    match jLookup kvs k2 with
    | some v => argsVal v
    | none => some []

/-- Two-alias variant of the env extraction. -/
def jGetEnv2D (kvs : List (String × JVal)) (k1 k2 : String) :
    Option (List (String × String)) :=
  match jLookup kvs k1 with
  | some (.obj pairs) => some (envPairs pairs)
  | some _ => none
  | none =>
    match jLookup kvs k2 with
    | some (.obj pairs) => some (envPairs pairs)
    | some _ => none
    | none => some []

/-- Translation of `_create_server_from_config` (lines 599-623): URL branch
always namespaces the name as `source/name`; the command branch namespaces
unless the name already contains a `/`.  The surrounding `try` makes every
raising case return `None` for this one entry. -/
def createServerFromConfig (source nm : String) (sc : JVal)
    (path : String) : Option MCPServerInfo :=
  match sc with
  | .obj fields =>
    match jLookup fields "url" with
    | some v => some ⟨source ++ "/" ++ nm, "", [], [], path, urlFieldVal v⟩
    | none =>
      match jGetStr2D fields "command" "cmd",
          jGetArgs2D fields "args" "arguments",
          jGetEnv2D fields "env" "environment" with
      | some c, some a, some e =>
        some ⟨if pyIn "/" nm then nm else source ++ "/" ++ nm,
          c, a, e, path, none⟩
      | _, _, _ => none
  | _ => none

/-- The `mcp.servers` entry loop of `_parse_generic_json_config`
(lines 541-545): a `None` from `_create_server_from_config` skips that
entry and the loop continues. -/
def genericEntries (source path : String) :
    List (String × JVal) → List MCPServerInfo
  | [] => []
  | (nm, sc) :: rest =>
    match createServerFromConfig source nm sc path with
    | some r => r :: genericEntries source path rest
    | none => genericEntries source path rest

/-- The `tools` array loop of `_parse_generic_json_config`
(lines 546-553): only dict elements whose `type` field is the string
`"mcp"` are translated; the entry name defaults to `"unknown"`. -/
def toolsEntries (source path : String) : List JVal → List MCPServerInfo
  | [] => []
  | t :: rest =>
    match t with
    | .obj fields =>
      match jLookup fields "type" with
      | some (.str ty) =>
        if ty == "mcp" then
          match
            (match jLookup fields "name" with
             | none => some "unknown"
             | some (.str s) => some s
             | some _ => none) with
          | some nm =>
            match createServerFromConfig source nm (.obj fields) path with
            | some r => r :: toolsEntries source path rest
            | none => toolsEntries source path rest
          | none => toolsEntries source path rest
        else toolsEntries source path rest
      | _ => toolsEntries source path rest
    | _ => toolsEntries source path rest

/-- The `extensions` loop of `_parse_generic_json_config` (lines 554-562):
descend only into dict-valued extensions holding an `mcpServers` key; an
`mcpServers` value that is not a dict raises at `.items()`, ending the
loop. -/
def extensionsEntries (source path : String) :
    List (String × JVal) → List MCPServerInfo
  | [] => []
  | (_, extCfg) :: rest =>
    match extCfg with
    | .obj efields =>
      match jLookup efields "mcpServers" with
      | some (.obj srvs) =>
        genericEntries source path srvs ++ extensionsEntries source path rest
      | some _ => []
      | none => extensionsEntries source path rest
    | _ => extensionsEntries source path rest

/-- Translation of `_parse_generic_json_config` (lines 522-567): ledger
check/insert, then the shape chain `mcpServers` (delegated to the
Claude-Desktop adapter after evicting the path from the ledger), nested
`mcp.servers`, `tools` array, `extensions` map, in that order. -/
def parseGenericJsonConfig (fs : FS) (source path : String)
    (st : List String) : List MCPServerInfo × List String :=
  let key := fs.resolve path
  if key ∈ st then ([], st)
  else
    let st1 := key :: st
    match fs.read path with
    | none => ([], st1)
    | some cfg =>
      match cfg with
      | .obj kvs =>
        match jLookup kvs "mcpServers" with
        | some _ =>
          parseClaudeDesktopConfig fs path (st1.erase key)
        | none =>
          match jLookup kvs "mcp" with
          | some (.obj m) =>
            (match jLookup m "servers" with
             | some (.obj srvs) => (genericEntries source path srvs, st1)
             | some _ => ([], st1)
             | none => ([], st1))
          | _ =>
            match jLookup kvs "tools" with
            | some (.arr ts) => (toolsEntries source path ts, st1)
            | _ =>
              match jLookup kvs "extensions" with
              | some (.obj exts) =>
                (extensionsEntries source path exts, st1)
              | _ => ([], st1)
      | _ => ([], st1)


/-- Name of a Continue.dev model entry:
`model.get("title", model.get("provider", "unknown"))`. -/
def continueName (fields : List (String × JVal)) : Option String :=
  match jLookup fields "title" with
  | some (.str s) => some s
  | some _ => none
  | none =>
    match jLookup fields "provider" with
    | some (.str s) => some s
    | some _ => none
    | none => some "unknown"

/-- The `apiBase` field captured as `url` (`model.get("apiBase", None)`):
an absent field is Python's `None`; a present value is stored through its
observable url form (never raising — Python keeps the raw value and the
loop continues). -/
def continueUrl (fields : List (String × JVal)) : Option String :=
  match jLookup fields "apiBase" with
  | none => none
  | some v => urlFieldVal v

/-- Record built for one MCP-flagged Continue.dev model (lines 581-588). -/
def mkContinueRec (fields : List (String × JVal)) (path : String) :
    Option MCPServerInfo :=
  match continueName fields, jGetStrD fields "command" "",
      jGetArgsD fields "args", jGetEnvD fields "env" with
  | some nm, some c, some a, some e =>
    some ⟨"continue/" ++ nm, c, a, e, path, continueUrl fields⟩
  | _, _, _, _ => none

/-- The `models` loop of `_parse_continue_config` (lines 577-590): dict
entries carrying a `provider` key are included when `useMcp` is truthy or
`"mcp"` occurs in the entry's `str()` form.  The second component records
whether the loop raised (which skips the rest of the function). -/
def continueModels (path : String) : List JVal → List MCPServerInfo × Bool
  | [] => ([], false)
  | m :: ms =>
    match m with
    | .obj fields =>
      if (jLookup fields "provider").isSome then
        if jTruthy (jGetD fields "useMcp" (.bool false))
            || pyIn "mcp" (pyLower (pyRepr (.obj fields))) then
          match mkContinueRec fields path with
          | some r =>
            let rest := continueModels path ms
            (r :: rest.1, rest.2)
          | none => ([], true)
        else continueModels path ms
      else continueModels path ms
    | _ => continueModels path ms

/-- Translation of `_parse_continue_config` (lines 569-597).  Note that,
unlike the Claude-Desktop / Cursor / generic-JSON adapters, this function
performs no Dedup-Ledger check of its own before reading and emitting the
model-derived records; only the trailing `mcpServers` delegation goes
through the ledger-checking Claude-Desktop adapter. -/
def parseContinueConfig (fs : FS) (path : String)
    (st : List String) : List MCPServerInfo × List String :=
  match fs.read path with
  | none => ([], st)
  | some cfg =>
    match cfg with
    | .obj kvs =>
      let ms :=
        match jLookup kvs "models" with
        | some (.arr l) => continueModels path l
        | some _ => ([], false)
        | none => ([], false)
      if ms.2 then (ms.1, st)
      else
        match jLookup kvs "mcpServers" with
        | some _ =>
          let cd := parseClaudeDesktopConfig fs path st
          (ms.1 ++ cd.1, cd.2)
        | none => (ms.1, st)
    | _ => ([], st)

/-- The per-candidate loop of `discover_all` for the Claude-Desktop bucket
(lines 311-314): probe each candidate path for existence, and parse the
ones that exist, threading the ledger and appending the records. -/
def runClaudeDesktop (fs : FS) : List String → List String →
    List MCPServerInfo × List String
  | [], st => ([], st)
  | p :: ps, st =>
    if fs.pathPresent p then
      let pr := parseClaudeDesktopConfig fs p st
      let rest := runClaudeDesktop fs ps pr.2
      (pr.1 ++ rest.1, rest.2)
    else runClaudeDesktop fs ps st

/-- The per-candidate loop of `discover_all` for the Continue.dev bucket
(lines 363-366). -/
def runContinue (fs : FS) : List String → List String →
    List MCPServerInfo × List String
  | [], st => ([], st)
  | p :: ps, st =>
    if fs.pathPresent p then
      let pr := parseContinueConfig fs p st
      let rest := runContinue fs ps pr.2
      (pr.1 ++ rest.1, rest.2)
    else runContinue fs ps st

/-- The final count reported by `discover_all`
(`len(self.discovered_servers)`, line 390) for the Claude-Desktop bucket
run from an empty ledger. -/
def runClaudeDesktopCount (fs : FS) (candidates : List String) : Nat :=
  (runClaudeDesktop fs candidates []).1.length

/-- Per-file step of the directory sweep, written from the amended
description: a document for which the `mcpServers` membership test
succeeds is consumed through the dedup ledger and, when the document is
an object whose `mcpServers` key holds an object, its entries are
translated exactly as in the Claude-Desktop adapter; a degenerate match
(a string or array document, or a non-object `mcpServers` value) is
consumed with no records; a non-matching or unreadable document
contributes nothing and does not touch the ledger. -/
def specSweepStep (fs : FS) (p : String) (st : List String) :
    List MCPServerInfo × List String :=
  match fs.read p with
  | none => ([], st)
  | some cfg =>
    if pyInDoc "mcpServers" cfg = some true then
      if fs.resolve p ∈ st then ([], st)
      else
        match cfg with
        | .obj kvs =>
          match jLookup kvs "mcpServers" with
          | some (.obj srvs) => (claudeRecords p srvs, fs.resolve p :: st)
          | _ => ([], fs.resolve p :: st)
        | _ => ([], fs.resolve p :: st)
    else ([], st)

/-- Per-file characterization of the directory sweep: `specSweepStep`
applied to each enumerated JSON file in walk order. -/
def specSweepGo (fs : FS) : List String → List String →
    List MCPServerInfo × List String
  | [], st => ([], st)
  | p :: ps, st =>
    let step := specSweepStep fs p st
    let rest := specSweepGo fs ps step.2
    (step.1 ++ rest.1, rest.2)

/-- Predicate `isFile` that is false everywhere (no path on disk names a
regular file); used in concrete evaluations. -/
def noFile : String → Bool := fun _ => false

/-- Record exercising the filesystem-condition divergence: the name does
not mention "filesystem" but an argument does. -/
def recC2 : MCPServerInfo := ⟨"x", "", ["filesystem"], [], "/cfg", none⟩

/-- Claude-Desktop document of the URL scenario. -/
def docC8 : JVal :=
  .obj [("mcpServers", .obj [("hf", .obj [("url", .str "https://hf.example/mcp")])])]

/-- Environment holding the URL-scenario document at `/claude.json`. -/
def fsC8 : FS :=
  ⟨fun _ => true, id,
   fun p => if p == "/claude.json" then some docC8 else none,
   noFile, fun _ => []⟩

/-- The record the URL scenario produces. -/
def recC8 : MCPServerInfo :=
  ⟨"hf", "", [], [], "/claude.json", some "https://hf.example/mcp"⟩

/-- Entry list with an empty key and an empty-string `url` field next to a
non-empty `command` field. -/
def entriesC5 : List (String × JVal) :=
  [("", .obj [("url", .str ""), ("command", .str "real")])]

/-- Claude-Desktop document wrapping `entriesC5`. -/
def docC5 : JVal := .obj [("mcpServers", .obj entriesC5)]

/-- Environment holding `docC5` at `/c5.json`. -/
def fsC5 : FS :=
  ⟨fun _ => true, id,
   fun p => if p == "/c5.json" then some docC5 else none,
   noFile, fun _ => []⟩

/-- Nested two-level document (`mcp.servers`) with a single entry. -/
def docC6 : JVal :=
  .obj [("mcp", .obj [("servers", .obj [("srv", .obj [("command", .str "c")])])])]

/-- Environment holding `docC6` at `/g.json`. -/
def fsC6 : FS :=
  ⟨fun _ => true, id,
   fun p => if p == "/g.json" then some docC6 else none,
   noFile, fun _ => []⟩

/-- Nested two-level document used for the directory sweep. -/
def docC7 : JVal :=
  .obj [("mcp", .obj [("servers", .obj [("s7", .obj [("command", .str "c7")])])])]

/-- Environment with one JSON file under the directory `/d`, holding the
nested two-level document. -/
def fsC7 : FS :=
  ⟨fun _ => true, id,
   fun p => if p == "/d/a.json" then some docC7 else none,
   noFile, fun d => if d == "/d" then ["/d/a.json"] else []⟩

/-- First Continue.dev candidate path (`~/.continue/config.json`). -/
def contPath1 : String := "/h/.continue/config.json"

/-- Second Continue.dev candidate path (`~/.config/continue/config.json`). -/
def contPath2 : String := "/h/.config/continue/config.json"

/-- Continue.dev document whose single model is flagged for MCP use. -/
def docC3 : JVal :=
  .obj [("models", .arr [.obj [("provider", .str "p"), ("useMcp", .bool true)]])]

/-- Environment in which both Continue.dev candidate paths exist and
resolve to the same canonical file, holding `docC3`. -/
def fsC3 : FS :=
  ⟨fun p => p == contPath1 || p == contPath2,
   fun _ => "/real/continue-config.json",
   fun p => if p == contPath1 || p == contPath2 then some docC3 else none,
   noFile, fun _ => []⟩

/-- Environment in which every path exists but no path can be read as
JSON (unreadable or syntactically invalid). -/
def fsC9 : FS := ⟨fun _ => true, id, fun _ => none, noFile, fun _ => []⟩

/-- C1: for every constructed record, the risk score is in [0, 1] and
equals the minimum of the sum of the deltas of the matched rules
(+0.30 custom binary, +0.25 sensitive env counted at most once,
+0.20 filesystem indicator, +0.15 database name, +0.10 url set,
+0.05 interpreted runtime) and 1.0. -/
theorem c1_risk_score_additive_clamped (isFile : String → Bool)
    (r : MCPServerInfo) :
    calculateRiskScore isFile r = min (ruleDeltaSum isFile r) 1 ∧
    0 ≤ calculateRiskScore isFile r ∧ calculateRiskScore isFile r ≤ 1 := by
  simp only [calculateRiskScore, ruleDeltaSum]
  rcases Bool.eq_false_or_eq_true (customBinCond isFile r) with h1 | h1 <;>
  rcases Bool.eq_false_or_eq_true (sensEnvCond r.envVars) with h2 | h2 <;>
  rcases Bool.eq_false_or_eq_true (fsScoreCond r) with h3 | h3 <;>
  rcases Bool.eq_false_or_eq_true (dbCond r) with h4 | h4 <;>
  rcases Bool.eq_false_or_eq_true (urlTruthy r.url) with h5 | h5 <;>
  rcases Bool.eq_false_or_eq_true (runnerCond r.command) with h6 | h6 <;>
  simp only [h1, h2, h3, h4, h5, h6] <;> norm_num [min_def]

/-- C10: the risk-factor list of every record has no duplicate tags; each
of the seven tags appears at most once no matter how many env keys or
name substrings match its condition. -/
theorem c10_factors_no_duplicates (isFile : String → Bool)
    (r : MCPServerInfo) :
    (identifyRiskFactors isFile r).Nodup ∧
    (identifyRiskFactors isFile r).count "CUSTOM_BINARY" ≤ 1 ∧
    (identifyRiskFactors isFile r).count "SENSITIVE_ENV_VARS" ≤ 1 ∧
    (identifyRiskFactors isFile r).count "FILE_SYSTEM_ACCESS" ≤ 1 ∧
    (identifyRiskFactors isFile r).count "DATABASE_ACCESS" ≤ 1 ∧
    (identifyRiskFactors isFile r).count "EXTERNAL_URL" ≤ 1 ∧
    (identifyRiskFactors isFile r).count "CODE_REPOSITORY_ACCESS" ≤ 1 ∧
    (identifyRiskFactors isFile r).count "AUTOMATION_CAPABILITY" ≤ 1 := by
  unfold identifyRiskFactors
  rcases Bool.eq_false_or_eq_true (customBinCond isFile r) with h1 | h1 <;>
  rcases Bool.eq_false_or_eq_true (sensEnvCond r.envVars) with h2 | h2 <;>
  rcases Bool.eq_false_or_eq_true (fsFactorCond r) with h3 | h3 <;>
  rcases Bool.eq_false_or_eq_true (dbCond r) with h4 | h4 <;>
  rcases Bool.eq_false_or_eq_true (urlTruthy r.url) with h5 | h5 <;>
  rcases Bool.eq_false_or_eq_true (githubCond r) with h6 | h6 <;>
  rcases Bool.eq_false_or_eq_true (autoCond r) with h7 | h7 <;>
  simp only [h1, h2, h3, h4, h5, h6, h7] <;> decide

/-- C2 counterexample: a record named `x` with argument `filesystem` gets
the +0.20 delta (risk score 0.2) while `FILE_SYSTEM_ACCESS` is not among
its factors, and its name does not contain "filesystem" — so the
score-pass condition is not the claimed name-only condition, and the
delta/factor agreement fails. -/
theorem c2_name_only_agreement_fails :
    fsFactorCond recC2 = false ∧
    fsScoreCond recC2 = true ∧
    calculateRiskScore noFile recC2 = 1/5 ∧
    "FILE_SYSTEM_ACCESS" ∉ identifyRiskFactors noFile recC2 := by
  have hc1 : customBinCond noFile recC2 = false := by decide
  have hc2 : sensEnvCond recC2.envVars = false := by decide
  have hc3 : fsScoreCond recC2 = true := by decide
  have hc4 : dbCond recC2 = false := by decide
  have hc5 : urlTruthy recC2.url = false := by decide
  have hc6 : runnerCond recC2.command = false := by decide
  refine ⟨by decide, hc3, ?_, by decide⟩
  simp only [calculateRiskScore, hc1, hc2, hc3, hc4, hc5, hc6]
  norm_num [min_def]

/-- C2 amended: the factor-pass filesystem condition is exactly "name
(case-insensitive) contains filesystem"; the score-pass condition is that
disjoined with "some raw argument contains filesystem"; consequently the
factor implies the delta, but not conversely. -/
theorem c2_filesystem_conditions (isFile : String → Bool)
    (r : MCPServerInfo) :
    ("FILE_SYSTEM_ACCESS" ∈ identifyRiskFactors isFile r ↔
      fsFactorCond r = true) ∧
    fsScoreCond r =
      (fsFactorCond r || r.args.any (fun a => pyIn "filesystem" a)) ∧
    ("FILE_SYSTEM_ACCESS" ∈ identifyRiskFactors isFile r →
      fsScoreCond r = true) := by
  have hs : fsScoreCond r =
      (fsFactorCond r || r.args.any (fun a => pyIn "filesystem" a)) := rfl
  have hm : ("FILE_SYSTEM_ACCESS" ∈ identifyRiskFactors isFile r ↔
      fsFactorCond r = true) := by
    unfold identifyRiskFactors
    rcases Bool.eq_false_or_eq_true (customBinCond isFile r) with h1 | h1 <;>
    rcases Bool.eq_false_or_eq_true (sensEnvCond r.envVars) with h2 | h2 <;>
    rcases Bool.eq_false_or_eq_true (fsFactorCond r) with h3 | h3 <;>
    rcases Bool.eq_false_or_eq_true (dbCond r) with h4 | h4 <;>
    rcases Bool.eq_false_or_eq_true (urlTruthy r.url) with h5 | h5 <;>
    rcases Bool.eq_false_or_eq_true (githubCond r) with h6 | h6 <;>
    rcases Bool.eq_false_or_eq_true (autoCond r) with h7 | h7 <;>
    simp only [h1, h2, h3, h4, h5, h6, h7] <;> decide
  refine ⟨hm, hs, fun hmem => ?_⟩
  rw [hs, hm.mp hmem, Bool.true_or]

/-- C4 counterexample: the key `DB_CREDENTIAL` matches the sensitive
pattern `CREDENTIAL` of the risk model, yet its 16-character value is
exported unchanged by the masking of `to_dict` (whose pattern list lacks
`CREDENTIAL`), not truncated to 10 characters plus the ellipsis marker. -/
theorem c4_credential_not_masked :
    pyIn "CREDENTIAL" (pyUpper "DB_CREDENTIAL") = true ∧
    sensEnvCond [("DB_CREDENTIAL", "abcdefghijklmnop")] = true ∧
    maskValue "DB_CREDENTIAL" "abcdefghijklmnop" = "abcdefghijklmnop" ∧
    ("abcdefghijklmnop" : String) ≠ "abcdefghij" ++ "..." := by
  refine ⟨by decide, by decide, by decide, by decide⟩

/-- C4 amended: the masking patterns of the exported row are TOKEN, KEY,
SECRET and PASSWORD (not CREDENTIAL); for a key matching one of them the
value is truncated to its first 10 characters plus an ellipsis marker when
longer than 10, else replaced by the fixed placeholder, while any other
key's value is exported unchanged; in particular `API_TOKEN` with
`abcdefghijklmnop` exports as `abcdefghij...` and with `short` as `***`. -/
theorem c4_masking_rule (key value : String) :
    ((pyIn "TOKEN" (pyUpper key) || pyIn "KEY" (pyUpper key) ||
        pyIn "SECRET" (pyUpper key) || pyIn "PASSWORD" (pyUpper key)) = true →
      (10 < pyLen value → maskValue key value = pyTake value 10 ++ "...") ∧
      (pyLen value ≤ 10 → maskValue key value = "***")) ∧
    ((pyIn "TOKEN" (pyUpper key) || pyIn "KEY" (pyUpper key) ||
        pyIn "SECRET" (pyUpper key) || pyIn "PASSWORD" (pyUpper key)) = false →
      maskValue key value = value) ∧
    maskValue "API_TOKEN" "abcdefghijklmnop" = "abcdefghij" ++ "..." ∧
    maskValue "API_TOKEN" "short" = "***" ∧
    maskedEnv [("API_TOKEN", "abcdefghijklmnop"), ("PLAIN", "v")] =
      [("API_TOKEN", "abcdefghij..."), ("PLAIN", "v")] := by
  have hsens : ["TOKEN", "KEY", "SECRET", "PASSWORD"].any
      (fun p => pyIn p (pyUpper key)) =
      (pyIn "TOKEN" (pyUpper key) || pyIn "KEY" (pyUpper key) ||
        pyIn "SECRET" (pyUpper key) || pyIn "PASSWORD" (pyUpper key)) := by
    simp [List.any, Bool.or_assoc]
  refine ⟨fun hs => ⟨fun hlong => ?_, fun hshort => ?_⟩,
    fun hs => ?_, by decide, by decide, by decide⟩
  · unfold maskValue
    rw [hsens, hs, if_pos rfl, if_pos hlong]
  · unfold maskValue
    rw [hsens, hs, if_pos rfl, if_neg (by omega)]
  · unfold maskValue
    rw [hsens, hs]
    simp

/-- C4 amended, witnessed at the claim's own concrete instances. -/
theorem c4_masking_rule_witness :
    ((pyIn "TOKEN" (pyUpper "API_TOKEN") || pyIn "KEY" (pyUpper "API_TOKEN") ||
        pyIn "SECRET" (pyUpper "API_TOKEN") ||
        pyIn "PASSWORD" (pyUpper "API_TOKEN")) = true ∧
      10 < pyLen "abcdefghijklmnop") ∧
    maskValue "API_TOKEN" "abcdefghijklmnop" =
      pyTake "abcdefghijklmnop" 10 ++ "..." := by
  refine ⟨⟨by decide, by decide⟩, ?_⟩
  exact ((c4_masking_rule "API_TOKEN" "abcdefghijklmnop").1
    (by decide)).1 (by decide)

/-- C5 counterexample: a Claude-Desktop document with entry key `""` whose
entry holds an empty-string `url` field next to the extractable command
`real` produces a record with empty name and with both command and url
unpopulated — refuting both the non-empty-name invariant and the
"only if no fields were extractable" caveat. -/
theorem c5_degenerate_record_with_extractable_command :
    (parseClaudeDesktopConfig fsC5 "/c5.json" []).1 =
      [⟨"", "", [], [], "/c5.json", some ""⟩] ∧
    (⟨"", "", [], [], "/c5.json", some ""⟩ : MCPServerInfo).name = "" ∧
    (⟨"", "", [], [], "/c5.json", some ""⟩ : MCPServerInfo).command = "" ∧
    urlTruthy (some "") = false ∧
    jGetStrD [("url", JVal.str ""), ("command", JVal.str "real")]
      "command" "" = some "real" := by
  refine ⟨by decide, rfl, rfl, by decide, by decide⟩

/-- C5 amended (per-entry form, Claude-Desktop adapter): every record the
entry translation produces carries the probed path as config_path and the
entry key verbatim as name (so both are non-empty exactly when path and
key are); an entry with a `url` key — whatever its value, including JSON
null — gets an empty command and the stored url form of that value, and
an entry without one gets no url and the extracted command; hence the
record has both command and url unpopulated if and only if the entry has
a `url` key with a falsy value (null, the empty string, ...), or has no
`url` key and no non-empty extractable command — regardless of which
other fields were extractable. -/
theorem c5_record_shape (nm : String) (fields : List (String × JVal))
    (path : String) (r : MCPServerInfo)
    (h : claudeEntryRec nm fields path = some r) :
    r.configPath = path ∧ r.name = nm ∧
    (∀ v, jLookup fields "url" = some v →
      r.command = "" ∧ r.url = urlFieldVal v) ∧
    (jLookup fields "url" = none →
      r.url = none ∧ jGetStrD fields "command" "" = some r.command) ∧
    ((r.command = "" ∧ urlTruthy r.url = false) ↔
      ((∃ v, jLookup fields "url" = some v ∧
          urlTruthy (urlFieldVal v) = false) ∨
        (jLookup fields "url" = none ∧
          jGetStrD fields "command" "" = some ""))) := by
  unfold claudeEntryRec at h
  cases hu : jLookup fields "url" with
  | some v =>
    rw [hu] at h
    have hr : some (MCPServerInfo.mk nm "" [] [] path (urlFieldVal v)) =
        some r := h
    injection hr with hr2
    subst hr2
    refine ⟨rfl, rfl, ?_, ?_, ?_⟩
    · intro w hw
      injection hw with hw2
      subst hw2
      exact ⟨rfl, rfl⟩
    · intro hn
      exact Option.noConfusion hn
    · simp
  | none =>
    rw [hu] at h
    have h2 : (match jGetStrD fields "command" "", jGetArgsD fields "args",
        jGetEnvD fields "env" with
      | some c, some a, some e =>
        some (MCPServerInfo.mk nm c a e path none)
      | _, _, _ => none) = some r := h
    cases hc : jGetStrD fields "command" "" with
    | none => rw [hc] at h2; exact Option.noConfusion h2
    | some c =>
      cases ha : jGetArgsD fields "args" with
      | none => rw [hc, ha] at h2; exact Option.noConfusion h2
      | some a =>
        cases he : jGetEnvD fields "env" with
        | none => rw [hc, ha, he] at h2; exact Option.noConfusion h2
        | some e =>
          rw [hc, ha, he] at h2
          have h3 : some (MCPServerInfo.mk nm c a e path none) = some r := h2
          injection h3 with h4
          subst h4
          refine ⟨rfl, rfl, ?_, ?_, ?_⟩
          · intro w hw
            exact Option.noConfusion hw
          · intro _
            exact ⟨rfl, rfl⟩
          · simp [urlTruthy]

/-- C5 amended, witnessed at a concrete entry whose `url` field holds
JSON null next to an extractable command. -/
theorem c5_record_shape_witness :
    claudeEntryRec "a" [("url", JVal.null), ("command", JVal.str "real")]
      "/p" = some ⟨"a", "", [], [], "/p", none⟩ ∧
    ((⟨"a", "", [], [], "/p", none⟩ : MCPServerInfo).configPath = "/p" ∧
      (⟨"a", "", [], [], "/p", none⟩ : MCPServerInfo).name = "a" ∧
      (∀ v, jLookup [("url", JVal.null), ("command", JVal.str "real")]
          "url" = some v →
        (⟨"a", "", [], [], "/p", none⟩ : MCPServerInfo).command = "" ∧
        (⟨"a", "", [], [], "/p", none⟩ : MCPServerInfo).url =
          urlFieldVal v) ∧
      (jLookup [("url", JVal.null), ("command", JVal.str "real")] "url" =
          none →
        (⟨"a", "", [], [], "/p", none⟩ : MCPServerInfo).url = none ∧
        jGetStrD [("url", JVal.null), ("command", JVal.str "real")]
          "command" "" =
          some (⟨"a", "", [], [], "/p", none⟩ : MCPServerInfo).command) ∧
      (((⟨"a", "", [], [], "/p", none⟩ : MCPServerInfo).command = "" ∧
          urlTruthy
            (⟨"a", "", [], [], "/p", none⟩ : MCPServerInfo).url = false) ↔
        ((∃ v, jLookup [("url", JVal.null), ("command", JVal.str "real")]
              "url" = some v ∧
            urlTruthy (urlFieldVal v) = false) ∨
          (jLookup [("url", JVal.null), ("command", JVal.str "real")]
              "url" = none ∧
            jGetStrD [("url", JVal.null), ("command", JVal.str "real")]
              "command" "" = some "")))) :=
  ⟨rfl, c5_record_shape "a"
    [("url", JVal.null), ("command", JVal.str "real")] "/p" _ rfl⟩

/-- C6 counterexample: the nested two-level document
`mcp.servers.srv = (command c)` parsed for vendor `Gemini` yields a record
named `Gemini/srv`, not the entry key `srv` taken verbatim — vendor
namespacing is added. -/
theorem c6_nested_entry_is_namespaced :
    (parseGenericJsonConfig fsC6 "Gemini" "/g.json" []).1 =
      [⟨"Gemini/srv", "c", [], [], "/g.json", none⟩] ∧
    ("Gemini/srv" : String) ≠ "srv" := by
  refine ⟨by decide, by decide⟩

/-- C6 amended: an entry of the nested two-level shape (and of every other
shape routed through `_create_server_from_config`) gets the
vendor-namespaced name `source/key` — always in the URL branch, and in
the command branch unless the key already contains a `/`, in which case
the key is kept verbatim. -/
theorem c6_created_name (source nm : String)
    (fields : List (String × JVal)) (path : String) (r : MCPServerInfo)
    (h : createServerFromConfig source nm (.obj fields) path = some r) :
    r.name = (match jLookup fields "url" with
      | some _ => source ++ "/" ++ nm
      | none => if pyIn "/" nm then nm else source ++ "/" ++ nm) := by
  unfold createServerFromConfig at h
  have h0 : (match jLookup fields "url" with
    | some v =>
      some (MCPServerInfo.mk (source ++ "/" ++ nm) "" [] [] path
        (urlFieldVal v))
    | none =>
      match jGetStr2D fields "command" "cmd",
          jGetArgs2D fields "args" "arguments",
          jGetEnv2D fields "env" "environment" with
      | some c, some a, some e =>
        some (MCPServerInfo.mk
          (if pyIn "/" nm then nm else source ++ "/" ++ nm) c a e path none)
      | _, _, _ => none) = some r := h
  clear h
  cases hu : jLookup fields "url" with
  | some v =>
    rw [hu] at h0
    have hr : some (MCPServerInfo.mk (source ++ "/" ++ nm) "" [] []
        path (urlFieldVal v)) = some r := h0
    injection hr with hr2
    subst hr2
    rfl
  | none =>
    rw [hu] at h0
    have h2 : (match jGetStr2D fields "command" "cmd",
        jGetArgs2D fields "args" "arguments",
        jGetEnv2D fields "env" "environment" with
      | some c, some a, some e =>
        some (MCPServerInfo.mk
          (if pyIn "/" nm then nm else source ++ "/" ++ nm) c a e path none)
      | _, _, _ => none) = some r := h0
    cases hc : jGetStr2D fields "command" "cmd" with
    | none => rw [hc] at h2; exact Option.noConfusion h2
    | some c =>
      cases ha : jGetArgs2D fields "args" "arguments" with
      | none => rw [hc, ha] at h2; exact Option.noConfusion h2
      | some a =>
        cases he : jGetEnv2D fields "env" "environment" with
        | none => rw [hc, ha, he] at h2; exact Option.noConfusion h2
        | some e =>
          rw [hc, ha, he] at h2
          have h3 : some (MCPServerInfo.mk
              (if pyIn "/" nm then nm else source ++ "/" ++ nm)
              c a e path none) = some r := h2
          injection h3 with h4
          subst h4
          rfl

/-- C6 amended, witnessed at a concrete command-branch entry. -/
theorem c6_created_name_witness :
    createServerFromConfig "S" "n" (.obj [("command", JVal.str "c")])
      "/p" = some ⟨"S/n", "c", [], [], "/p", none⟩ ∧
    (⟨"S/n", "c", [], [], "/p", none⟩ : MCPServerInfo).name =
      (match jLookup [("command", JVal.str "c")] "url" with
        | some _ => "S" ++ "/" ++ "n"
        | none => if pyIn "/" "n" then "n" else "S" ++ "/" ++ "n") := by
  exact ⟨rfl,
    c6_created_name "S" "n" [("command", JVal.str "c")] "/p" _ rfl⟩

/-- C7 counterexample: the sweep over directory `/d` containing one JSON
file of the nested two-level shape (shape 2) emits no records, while the
generic adapter of shapes 1-4 applied to that same file emits one — so
the per-file adapter used by the sweep is not the shapes-1-4 one. -/
theorem c7_sweep_misses_shape_two :
    fsC7.filesUnder "/d" = ["/d/a.json"] ∧
    (scanDirectoryForConfigs fsC7 "/d" []).1 = [] ∧
    (parseGenericJsonConfig fsC7 "generic" "/d/a.json" []).1 ≠ [] := by
  refine ⟨rfl, by decide, by decide⟩

/-- C7 amended: the directory sweep recursively enumerates the JSON files
under the root and applies, to each file in walk order, recognition of
shape 1 only: a document that is an object with an `mcpServers` key is
consumed through the dedup ledger and (when that key holds an object) its
entries are translated exactly as in the Claude-Desktop adapter; every
other document shape contributes nothing. -/
theorem c7_sweep_is_shape_one_only (fs : FS) (dir : String)
    (st : List String) :
    scanDirectoryForConfigs fs dir st = specSweepGo fs (fs.filesUnder dir) st := by
  unfold scanDirectoryForConfigs
  generalize fs.filesUnder dir = files
  induction files generalizing st with
  | nil => rfl
  | cons p ps ih =>
    have hstep : parseGenericMcpConfig fs p st = specSweepStep fs p st := by
      unfold parseGenericMcpConfig specSweepStep
      cases hr : fs.read p with
      | none => rfl
      | some cfg =>
        cases cfg with
        | null => simp [pyInDoc]
        | bool b => simp [pyInDoc]
        | num n => simp [pyInDoc]
        | str s =>
          cases hb : pyIn "mcpServers" s with
          | false => simp [pyInDoc, hb]
          | true =>
            by_cases hmem : fs.resolve p ∈ st
            · simp [pyInDoc, hb, hmem, parseClaudeDesktopConfig]
            · simp [pyInDoc, hb, hmem, parseClaudeDesktopConfig, hr]
        | arr xs =>
          cases hb : xs.any
              (fun v => match v with | .str s => s == "mcpServers" | _ => false) with
          | false => simp [pyInDoc, hb]
          | true =>
            by_cases hmem : fs.resolve p ∈ st
            · simp [pyInDoc, hb, hmem, parseClaudeDesktopConfig]
            · simp [pyInDoc, hb, hmem, parseClaudeDesktopConfig, hr]
        | obj kvs =>
          cases hl : jLookup kvs "mcpServers" with
          | none => simp [pyInDoc, hl]
          | some v =>
            by_cases hmem : fs.resolve p ∈ st
            · simp [pyInDoc, hl, hmem, parseClaudeDesktopConfig]
            · cases v <;> simp [pyInDoc, hl, hmem, parseClaudeDesktopConfig, hr]
    simp only [scanGo, specSweepGo]
    rw [hstep, ih]

/-- C8: every top-level server-map entry with a `url` field yields a
record with empty command, empty args, empty env and the given url; the
document with the single entry `hf` holding
`url = https://hf.example/mcp` yields exactly one record whose risk score
is 0.1 and whose factors are exactly `EXTERNAL_URL` (given that the empty
command names no regular file on disk). -/
theorem c8_url_branch (isFile : String → Bool) (hf : isFile "" = false) :
    (∀ nm u fields path, jLookup fields "url" = some (.str u) →
      claudeEntryRec nm fields path =
        some ⟨nm, "", [], [], path, some u⟩) ∧
    (parseClaudeDesktopConfig fsC8 "/claude.json" []).1 = [recC8] ∧
    calculateRiskScore isFile recC8 = 1/10 ∧
    identifyRiskFactors isFile recC8 = ["EXTERNAL_URL"] := by
  have hcb : customBinCond isFile recC8 = false := by
    unfold customBinCond
    have : startsRunner recC8.command = false := by decide
    rw [this]
    have : recC8.command = "" := rfl
    rw [this, hf]
    rfl
  refine ⟨fun nm u fields path hu => ?_, by decide, ?_, ?_⟩
  · unfold claudeEntryRec
    rw [hu]
    rfl
  · have hc2 : sensEnvCond recC8.envVars = false := by decide
    have hc3 : fsScoreCond recC8 = false := by decide
    have hc4 : dbCond recC8 = false := by decide
    have hc5 : urlTruthy recC8.url = true := by decide
    have hc6 : runnerCond recC8.command = false := by decide
    simp only [calculateRiskScore, hcb, hc2, hc3, hc4, hc5, hc6]
    norm_num [min_def]
  · have hc2 : sensEnvCond recC8.envVars = false := by decide
    have hc3 : fsFactorCond recC8 = false := by decide
    have hc4 : dbCond recC8 = false := by decide
    have hc5 : urlTruthy recC8.url = true := by decide
    have hc6 : githubCond recC8 = false := by decide
    have hc7 : autoCond recC8 = false := by decide
    simp only [identifyRiskFactors, hcb, hc2, hc3, hc4, hc5, hc6, hc7]
    decide

/-- C8, witnessed with the everywhere-false `os.path.isfile`. -/
theorem c8_url_branch_witness :
    noFile "" = false ∧
    ((∀ nm u fields path, jLookup fields "url" = some (.str u) →
        claudeEntryRec nm fields path =
          some ⟨nm, "", [], [], path, some u⟩) ∧
      (parseClaudeDesktopConfig fsC8 "/claude.json" []).1 = [recC8] ∧
      calculateRiskScore noFile recC8 = 1/10 ∧
      identifyRiskFactors noFile recC8 = ["EXTERNAL_URL"]) :=
  ⟨rfl, c8_url_branch noFile rfl⟩

/-- C9: a candidate whose file is unreadable or not valid JSON contributes
zero records — for the Claude-Desktop adapter and for the generic JSON
adapter of any vendor label — and the run over the remaining candidates
proceeds exactly as it would from the updated ledger, with the final
reported count being the count of the records of that remaining run. -/
theorem c9_invalid_file_is_skipped (fs : FS) (source p : String)
    (ps : List String) (st : List String)
    (hread : fs.read p = none) (hpresent : fs.pathPresent p = true) :
    (parseClaudeDesktopConfig fs p st).1 = [] ∧
    (parseGenericJsonConfig fs source p st).1 = [] ∧
    (runClaudeDesktop fs (p :: ps) st).1 =
      (runClaudeDesktop fs ps (parseClaudeDesktopConfig fs p st).2).1 ∧
    runClaudeDesktopCount fs (p :: ps) =
      (runClaudeDesktop fs ps (parseClaudeDesktopConfig fs p []).2).1.length := by
  have hcd : ∀ s : List String, (parseClaudeDesktopConfig fs p s).1 = [] := by
    intro s
    unfold parseClaudeDesktopConfig
    by_cases hmem : fs.resolve p ∈ s
    · simp [hmem]
    · simp [hmem, hread]
  have hrun : ∀ s : List String, (runClaudeDesktop fs (p :: ps) s).1 =
      (runClaudeDesktop fs ps (parseClaudeDesktopConfig fs p s).2).1 := by
    intro s
    simp only [runClaudeDesktop, hpresent, if_true]
    rw [hcd s]
    simp
  refine ⟨hcd st, ?_, hrun st, ?_⟩
  · unfold parseGenericJsonConfig
    by_cases hmem : fs.resolve p ∈ st
    · simp [hmem]
    · simp [hmem, hread]
  · unfold runClaudeDesktopCount
    rw [hrun []]

/-- C9, witnessed in the environment where no file can be read. -/
theorem c9_invalid_file_is_skipped_witness :
    (fsC9.read "/a" = none ∧ fsC9.pathPresent "/a" = true) ∧
    ((parseClaudeDesktopConfig fsC9 "/a" []).1 = [] ∧
      (parseGenericJsonConfig fsC9 "Cody" "/a" []).1 = [] ∧
      (runClaudeDesktop fsC9 ["/a", "/b"] []).1 =
        (runClaudeDesktop fsC9 ["/b"]
          (parseClaudeDesktopConfig fsC9 "/a" []).2).1 ∧
      runClaudeDesktopCount fsC9 ["/a", "/b"] =
        (runClaudeDesktop fsC9 ["/b"]
          (parseClaudeDesktopConfig fsC9 "/a" []).2).1.length) :=
  ⟨⟨rfl, rfl⟩, c9_invalid_file_is_skipped fsC9 "Cody" "/a" ["/b"] [] rfl rfl⟩

/-- C3, evaluated at the failing input: both Continue.dev candidate paths
exist and resolve to the same canonical file, whose single model entry is
flagged for MCP use; the run over the two candidates emits the entry's
record twice — two adapter invocations over one resolved file — because
`_parse_continue_config` never consults the dedup ledger for its
model-derived records (no delegation eviction is involved). -/
theorem c3_continue_double_emit :
    fsC3.resolve contPath1 = fsC3.resolve contPath2 ∧
    (runContinue fsC3 [contPath1, contPath2] []).1 =
      [⟨"continue/p", "", [], [], contPath1, none⟩,
        ⟨"continue/p", "", [], [], contPath2, none⟩] := by
  refine ⟨rfl, by decide⟩
